import Mathlib

/-!
Verification of `cq_warehouse/fastener.py` (parametric threaded fastener
generator).

The Python source is shallowly embedded here:

* numeric fastener dimensions become exact rationals (`ℚ`) for table-driven
  code and reals (`ℝ`) where the source calls transcendental functions
  (`math.sqrt`, `math.cos`);
* the CSV dimension tables shipped with the package are not part of the
  source file, so table lookups are modelled as explicit association lists
  or abstract lookup functions passed in as parameters;
* Python exceptions become `Except String` / explicit error sums;
* Python object identity (the default `__eq__` / `__hash__`, which
  `Screw`, `Nut` and `Washer` never override) is modelled by giving each
  instance a numeric `id` and comparing ids;
* `cq.Assembly.metadata` is `Option` of an insertion-ordered association
  list; `none` models a missing/`None` metadata attribute.
-/

namespace CqFastener

/-! ## Fastener instances, identity and `info` strings

`Screw`, `Nut` and `Washer` instances carry `size`, `fastener_type`,
`hand`, `simple` (and, for screws, `length`).  None of the classes define
`__eq__` or `__hash__`, so Python compares instances by object identity.
`info` (fastener.py lines 419-421, 912-915, 1698-1701) is a string derived
purely from the instance's values. -/

/-- Value content of a fastener instance: the constructor parameters that
determine its `info` string.  `lengthStr` is the printed `x{length}` part of
a screw's info (empty for nuts and washers). -/
structure FastenerValue where
  cls : String
  size : String
  fastener_type : String
  lengthStr : String
  hand : String
  simple : Bool
deriving DecidableEq, Repr

/-- Identifying information string, from the `info` properties: the class
name, fastener type, size (and for screws length and an optional left-hand
marker). -/
def FastenerValue.info (v : FastenerValue) : String :=
  v.cls ++ "(" ++ v.fastener_type ++ "): " ++ v.size ++ v.lengthStr ++
    (if v.hand == "left" then " left hand thread" else "")

/-- Model of one Python fastener object: its value content plus a numeric
identity distinguishing separately constructed objects. -/
structure FastenerInstance where
  id : ℕ
  val : FastenerValue
deriving DecidableEq, Repr

/-- Python `==` on fastener instances: the classes define no `__eq__`, so
the default object-identity comparison applies. -/
def pyEq (a b : FastenerInstance) : Bool :=
  a.id == b.id

/-- Python `list.count` with the default identity equality, as used by
`_fastener_quantities` (`fasteners.count(f)`). -/
def pyCount (l : List FastenerInstance) (f : FastenerInstance) : ℕ :=
  (l.filter (fun g => pyEq g f)).length

/-- Python `set(fasteners)`: deduplication under object identity, modelled
with first-occurrence order. -/
def pyDedup (l : List FastenerInstance) : List FastenerInstance :=
  l.foldl (fun acc f => if acc.any (fun g => pyEq g f) then acc else acc ++ [f]) []

/-- Key of the quantity dictionary built by `_fastener_quantities`:
`f.info` (a string) when `bom=True`, the fastener object itself when
`bom=False`. -/
inductive BomKey where
  | info : String → BomKey
  | inst : FastenerInstance → BomKey
deriving DecidableEq, Repr

/-- Python `==` on dictionary keys: strings compare by value, fastener
objects by identity. -/
def pyKeyEq : BomKey → BomKey → Bool
  | BomKey.info s, BomKey.info t => s == t
  | BomKey.inst a, BomKey.inst b => pyEq a b
  | _, _ => false

/-- Python dict assignment `d[k] = v`: overwrite the value at an existing
key (keeping its position) or append a new entry. -/
def dictInsert (d : List (BomKey × ℕ)) (k : BomKey) (v : ℕ) : List (BomKey × ℕ) :=
  if d.any (fun p => pyKeyEq p.1 k) then
    d.map (fun p => if pyKeyEq p.1 k then (p.1, v) else p)
  else d ++ [(k, v)]

/-- Python dict lookup `d[k]` as an `Option`. -/
def dictGet (d : List (BomKey × ℕ)) (k : BomKey) : Option ℕ :=
  (d.find? (fun p => pyKeyEq p.1 k)).map Prod.snd

/-- Model of `_fastener_quantities` (fastener.py lines 2099-2117): if the
assembly's `metadata` is `None` return `None`; otherwise collect the
fastener-valued metadata entries, deduplicate them as a Python `set`
(object identity), and build a dictionary from each unique fastener's key
(`info` when `bom` else the object) to its identity-based occurrence
count. -/
def fastener_quantities (metadata : Option (List (String × FastenerInstance)))
    (bom : Bool) : Option (List (BomKey × ℕ)) :=
  match metadata with
  | none => none
  | some entries =>
    let fasteners := entries.map Prod.snd
    let unique_fasteners := pyDedup fasteners
    some (unique_fasteners.foldl
      (fun d f =>
        dictInsert d (if bom then BomKey.info f.val.info else BomKey.inst f)
          (pyCount fasteners f))
      [])

/-! ## Hole-cutting placement bookkeeping

`_fastenerHole` (fastener.py lines 1952-1987): when a `baseAssembly` is
supplied, for every hole location it adds each washer and then the fastener
as assembly children (cadquery generates a fresh unique child name per
`add`) and records `metadata[child_name] = instance` — creating the
`metadata` dict on first use (`hasattr` check). -/

/-- Child names generated by the assembly for unnamed `add` calls: unique
per addition, modelled by a counter. -/
def childName (n : ℕ) : String :=
  "child_" ++ toString n

/-- Bookkeeping state: the fresh-name counter together with the assembly's
`metadata` (`none` while the attribute does not exist yet). -/
abbrev RecordState := ℕ × Option (List (String × FastenerInstance))

/-- Record one placed instance (fastener.py lines 1971-1974 and 1984-1987):
create the metadata dict if the attribute is absent, otherwise assign under
a fresh child name. -/
def addRecord (st : RecordState) (f : FastenerInstance) : RecordState :=
  match st with
  | (n, none) => (n + 1, some [(childName n, f)])
  | (n, some d) => (n + 1, some (d ++ [(childName n, f)]))

/-- Bookkeeping for one hole location (fastener.py lines 1954-1987): each
washer is placed and recorded in order, then the fastener itself. -/
def placeAtHole (washers : List FastenerInstance) (fastener : FastenerInstance)
    (st : RecordState) : RecordState :=
  addRecord (washers.foldl addRecord st) fastener

/-- Bookkeeping of the whole hole-cutting call: the washer/fastener
placements repeated for every target location. -/
def cutHolesRecords (locations : List ℕ) (washers : List FastenerInstance)
    (fastener : FastenerInstance) (st : RecordState) : RecordState :=
  locations.foldl (fun s _ => placeAtHole washers fastener s) st

/-- Entries generated for one hole location starting at name counter `n`:
one per washer then one for the fastener. -/
def layerEntries : List FastenerInstance → FastenerInstance → ℕ →
    List (String × FastenerInstance)
  | [], f, n => [(childName n, f)]
  | w :: ws, f, n => (childName n, w) :: layerEntries ws f (n + 1)

/-- Entries generated for a list of hole locations starting at name counter
`n`. -/
def holesEntries : List ℕ → List FastenerInstance → FastenerInstance → ℕ →
    List (String × FastenerInstance)
  | [], _, _, _ => []
  | _ :: ls, ws, f, n =>
      layerEntries ws f n ++ holesEntries ls ws f (n + ws.length + 1)

/-! ## Hole radius and countersink resolution

Model of the cutter-setup part of `_fastenerHole` (fastener.py lines
1898-1945): countersink handling, bore-radius resolution with its
key-lookup error, and assembly of the composite cutter.  The conical drill
tip (height `hole_radius / tan(41°)`, always fused on) and the boolean cut
itself are geometric-kernel work outside this numeric model. -/

/-- Numeric parameters of the fastener passed to `_fastenerHole`.
`countersink_profile` is the axial extent (topmost `Z`) of the revolved
countersink profile, or `none` when the variant's `countersink_profile`
method returns `None` (set screws). -/
structure HoleFastener where
  thread_diameter : ℚ
  thread_pitch : ℚ
  countersink_profile : Option ℚ
deriving DecidableEq, Repr

/-- Composite cutter produced by `_fastenerHole`: an optional countersink
cutter (its axial extent) fused with the cylindrical bore of the resolved
radius and requested depth. -/
structure HoleCutter where
  countersink : Option ℚ
  boreRadius : ℚ
  boreDepth : ℚ
deriving DecidableEq, Repr

/-- Printed form of the optional fit/material key, as Python renders it
inside the error f-string (`None` for a missing key). -/
def keyStr : Option String → String
  | none => "None"
  | some k => k

/-- Error message raised on an unknown fit/material key (fastener.py lines
1924-1927): it enumerates the valid keys of the diameter table. -/
def keyErrorMsg (key : Option String) (validKeys : List String) : String :=
  keyStr key ++ " invalid, must be one of " ++ String.intercalate ", " validKeys

/-- Dictionary lookup `hole_diameters[key]`; a Python `None` key is never
present in the string-keyed diameter tables. -/
def lookupDiameter (table : List (String × ℚ)) : Option String → Option ℚ
  | none => none
  | some k => (table.find? (fun p => p.1 == k)).map Prod.snd

/-- Model of `_fastenerHole` lines 1898-1938: returns the head offset and
the composite cutter, or the configuration error raised on an unknown
diameter key.  A hole is threaded exactly when `hand` is set; then the bore
radius is the fastener's thread major diameter over two and the diameter
table is never consulted.  `counterSunk` with a `None` countersink profile
degrades to `head_offset = 0` and a plain bore. -/
def fastenerHoleSetup (hole_diameters : List (String × ℚ)) (fastener : HoleFastener)
    (depth : ℚ) (fit material : Option String) (counterSunk : Bool)
    (hand : Option String) : Except String (ℚ × HoleCutter) :=
  let threaded_hole := hand.isSome
  let head_offset : ℚ :=
    match counterSunk, fastener.countersink_profile with
    | true, some z => z
    | _, _ => 0
  match
    (if threaded_hole then Except.ok (fastener.thread_diameter / 2)
     else
       let key := match material with
         | none => fit
         | some m => some m
       match lookupDiameter hole_diameters key with
       | some d => Except.ok (d / 2)
       | none => Except.error (keyErrorMsg key (hole_diameters.map Prod.fst))) with
  | Except.error e => Except.error e
  | Except.ok hole_radius =>
    let cutter : HoleCutter :=
      match counterSunk, fastener.countersink_profile with
      | true, some z => ⟨some z, hole_radius, depth⟩
      | _, _ => ⟨none, hole_radius, depth⟩
    Except.ok (head_offset, cutter)

/-! ## Constructor validation

`Screw.__init__` (fastener.py lines 955-1007) and `Nut.__init__` (lines
464-506) validate in order: the size string must split on a dash into
exactly two parts, `fastener_type` must be one of the family's types,
`hand` must be "left" or "right", the size must be present in the family's
dimension table for that type, and (screws only, after the dimension set is
resolved) `length_offset() < length` must hold.  The family dimension table
comes from CSV files that are not part of this source file, so it is an
abstract lookup parameter `fastener_type → size → Option dimension_set`. -/

/-- Splitting a character list on every dash, Python `str.split("-")`
semantics (`"a-b-c" ↦ ["a","b","c"]`, `"" ↦ [""]`). -/
def splitOnDash : List Char → List (List Char)
  | [] => [[]]
  | a :: rest =>
    if a = '-' then [] :: splitOnDash rest
    else
      match splitOnDash rest with
      | [] => [[a]]
      | g :: gs => (a :: g) :: gs

/-- Python `str.strip()`: drop leading and trailing whitespace. -/
def pyStrip (s : String) : List Char :=
  ((s.data.dropWhile Char.isWhitespace).reverse.dropWhile Char.isWhitespace).reverse

/-- The parsed parts of a size designation, `size.strip().split("-")` from
the constructors. -/
def sizeParts (s : String) : List (List Char) :=
  splitOnDash (pyStrip s)

/-- Error-taxonomy of the `ValueError`s raised by the constructors, one
constructor per distinct raise site. -/
inductive CtorError where
  | invalidSize
  | invalidType
  | invalidHand
  | unknownSize
  | lengthTooShort
deriving DecidableEq, Repr

/-- Resolved dimension set: named numeric dimensions for the exact
size and type. -/
abbrev DimSet := List (String × ℚ)

/-- Validation chain of `Screw.__init__` (fastener.py lines 964-1007).
`lengthOffsetOf` is the variant's `length_offset` (the base class returns
`0`; `CounterSunkScrew.length_offset` returns the dimension `k`).  Returns
the resolved dimension set when every check passes. -/
def screwInit (types : List String)
    (table : String → String → Option DimSet)
    (lengthOffsetOf : DimSet → ℚ)
    (size : String) (length : ℚ) (fastener_type : String) (hand : String) :
    Except CtorError DimSet :=
  let size_parts := sizeParts size
  if size_parts.length ≠ 2 then Except.error CtorError.invalidSize
  else if types.contains fastener_type = false then Except.error CtorError.invalidType
  else if hand ≠ "left" ∧ hand ≠ "right" then Except.error CtorError.invalidHand
  else
    match table fastener_type size with
    | none => Except.error CtorError.unknownSize
    | some screw_data =>
      if lengthOffsetOf screw_data ≥ length then Except.error CtorError.lengthTooShort
      else Except.ok screw_data

/-- Validation chain of `Nut.__init__` (fastener.py lines 471-505): the
same first four checks as `Screw.__init__`, with no length check. -/
def nutInit (types : List String)
    (table : String → String → Option DimSet)
    (size : String) (fastener_type : String) (hand : String) :
    Except CtorError DimSet :=
  let size_parts := sizeParts size
  if size_parts.length ≠ 2 then Except.error CtorError.invalidSize
  else if types.contains fastener_type = false then Except.error CtorError.invalidType
  else if hand ≠ "left" ∧ hand ≠ "right" then Except.error CtorError.invalidHand
  else
    match table fastener_type size with
    | none => Except.error CtorError.unknownSize
    | some nut_data => Except.ok nut_data

/-- Dimension lookup inside a resolved dimension set
(`self.screw_data["k"]`). -/
def dimLookup (d : DimSet) (name : String) : Option ℚ :=
  (d.find? (fun p => p.1 == name)).map Prod.snd

/-- Length offset of `CounterSunkScrew` (fastener.py lines 1286-1288): the
head height dimension `k` of the resolved dimension set.  A dimension set
without `k` would raise `KeyError` in Python; the theorems assume `k` is
present, as every countersunk table row supplies it. -/
def counterSunkLengthOffset (d : DimSet) : ℚ :=
  (dimLookup d "k").getD 0

/-! ## Cross / Phillips recess solver

`cross_recess` (fastener.py lines 211-239) draws a quarter of the cruciform
contour on the XY plane, mirrors it across both axes, selects the vertices
inside the box `(-m/3, -m/3, -m/3)..(m/3, m/3, m/3)` (cadquery
`BoxSelector` keeps points strictly inside the box) and fillets exactly
those vertices with radius `m/3`.  The model tracks the contour's vertex
coordinates; arcs introduced by the fillet are geometric-kernel work. -/

/-- Construction points of the quarter contour
(`moveTo(m/2, 0).vLineTo(m/12).hLineTo(m/12).vLineTo(m/2).hLineTo(0)`). -/
def crossQuarterVertices (m : ℚ) : List (ℚ × ℚ) :=
  [(m / 2, 0), (m / 2, m / 12), (m / 12, m / 12), (m / 12, m / 2), (0, m / 2)]

/-- Vertex set after `mirrorX` (reflection across the X axis, keeping the
original). -/
def mirrorX (vs : List (ℚ × ℚ)) : List (ℚ × ℚ) :=
  vs ++ vs.map (fun p => (p.1, -p.2))

/-- Vertex set after `mirrorY` (reflection across the Y axis, keeping the
original). -/
def mirrorY (vs : List (ℚ × ℚ)) : List (ℚ × ℚ) :=
  vs ++ vs.map (fun p => (-p.1, p.2))

/-- Vertices of the full cruciform plan contour. -/
def crossPlanVertices (m : ℚ) : List (ℚ × ℚ) :=
  mirrorY (mirrorX (crossQuarterVertices m))

/-- Vertices selected by
`BoxSelector((-m/3, -m/3, -m/3), (m/3, m/3, m/3))`: points strictly inside
the box (the plan lies in the `z = 0` plane, inside the box's z-range). -/
def crossSelectedVertices (m : ℚ) : List (ℚ × ℚ) :=
  (crossPlanVertices m).filter
    (fun p => decide (-m / 3 < p.1 ∧ p.1 < m / 3 ∧ -m / 3 < p.2 ∧ p.2 < m / 3))

/-- Width (dimension `m`) table of `cross_recess`. -/
def crossWidths : List (String × ℚ) :=
  [("PH0", 1.9), ("PH1", 3.1), ("PH2", 5.3), ("PH3", 6.8), ("PH4", 10.0)]

/-- Depth table of `cross_recess`. -/
def crossDepths : List (String × ℚ) :=
  [("PH0", 1.1), ("PH1", 2.0), ("PH2", 3.27), ("PH3", 3.53), ("PH4", 5.88)]

/-- Result of the cross-recess solver model: the plan contour vertices, the
vertices that receive a fillet, the fillet radius and the recess depth. -/
structure CrossRecessResult where
  planVertices : List (ℚ × ℚ)
  filletedVertices : List (ℚ × ℚ)
  filletRadius : ℚ
  depth : ℚ
deriving DecidableEq, Repr

/-- Model of `cross_recess` (fastener.py lines 211-239): look up the width
`m` (unknown size code raises `ValueError`), build the mirrored cruciform
contour, and fillet the box-selected vertices with radius `m/3`; the depth
comes from the depth table. -/
def cross_recess (size : String) : Except String CrossRecessResult :=
  match (crossWidths.find? (fun p => p.1 == size)).map Prod.snd with
  | none => Except.error (size ++ " is an invalid cross size")
  | some m =>
    Except.ok
      { planVertices := crossPlanVertices m
        filletedVertices := crossSelectedVertices m
        filletRadius := m / 3
        depth := ((crossDepths.find? (fun p => p.1 == size)).map Prod.snd).getD 0 }

/-! ## Real-valued recess helpers

`polygon_diagonal` (fastener.py lines 55-57) and the hexalobular solver
(lines 250-302) call `math.cos` and `math.sqrt`, so they are modelled over
`ℝ`. -/

/-- Distance across polygon diagonals given the width across flats
(fastener.py lines 55-57): `width / cos(pi / num_sides)`. -/
noncomputable def polygon_diagonal (width : ℝ) (num_sides : ℕ) : ℝ :=
  width / Real.cos (Real.pi / num_sides)

/-- Model of `hexalobular_recess` (fastener.py lines 250-302) restricted to
its numeric outputs.  The iso10664 CSV table (size code ↦ outer diameter
`A`, inner diameter `B`, external fillet radius `Re`) is not part of this
source file and is passed as an abstract lookup.  A missing size code
raises `ValueError`; otherwise the internal fillet radius `Ri` is derived
by the closed-form tangency formula of lines 269-272 and the recess depth
is `0.6 * A` (line 302).  The three-arc sixth-sector wire built from `Ri`
is geometric-kernel work. -/
noncomputable def hexalobular_recess (table : String → Option (ℝ × ℝ × ℝ))
    (size : String) : Except String (ℝ × ℝ) :=
  match table size with
  | none => Except.error (size ++ " is an invalid hexalobular size")
  | some (A, B, Re) =>
    let sqrt_3 := Real.sqrt 3
    let Ri := (A ^ 2 - sqrt_3 * A * B - 4 * A * Re + B ^ 2 + 2 * sqrt_3 * B * Re) /
      (2 * (sqrt_3 * A - 2 * B - 2 * sqrt_3 * Re + 4 * Re))
    Except.ok (Ri, 0.6 * A)

/-! ## Theorems -/

/-- C10: for every assembly whose `metadata` attribute is `None`, the BOM
extractor `fastener_quantities` returns `None` — not an empty mapping and
not an error — regardless of the `bom` flag. -/
theorem fastener_quantities_none_metadata (bom : Bool) :
    fastener_quantities none bom = none ∧
    fastener_quantities none bom ≠ some [] := by
  exact ⟨rfl, by simp [fastener_quantities]⟩

/-- C1: for every hexalobular size code present in the table,
`hexalobular_recess` derives the internal fillet radius `Ri` from the
table-driven `A`, `B`, `Re` by the closed-form formula
`(A² − √3·A·B − 4·A·Re + B² + 2√3·B·Re) / (2·(√3·A − 2B − 2√3·Re + 4Re))`
and returns recess depth `0.6 * A`; for every size code not in the table it
raises a configuration error. -/
theorem hexalobular_recess_spec (table : String → Option (ℝ × ℝ × ℝ))
    (size : String) :
    (∀ A B Re, table size = some (A, B, Re) →
      hexalobular_recess table size =
        Except.ok
          ((A ^ 2 - Real.sqrt 3 * A * B - 4 * A * Re + B ^ 2 +
              2 * Real.sqrt 3 * B * Re) /
            (2 * (Real.sqrt 3 * A - 2 * B - 2 * Real.sqrt 3 * Re + 4 * Re)),
           0.6 * A)) ∧
    (table size = none →
      hexalobular_recess table size =
        Except.error (size ++ " is an invalid hexalobular size")) := by
  constructor
  · intro A B Re h
    simp [hexalobular_recess, h]
  · intro h
    simp [hexalobular_recess, h]

/-- Demonstration hexalobular table holding only the size code T6. -/
noncomputable def demoHexalobularTable : String → Option (ℝ × ℝ × ℝ) :=
  fun s => if s = "T6" then some (1.75, 1.27, 0.1) else none

/-- Witness for C1 at the concrete table above: the T6 lookup succeeds and
yields the formula value and depth, and an absent code yields the error. -/
theorem hexalobular_recess_spec_witness :
    hexalobular_recess demoHexalobularTable "T6" =
      Except.ok
        (((1.75 : ℝ) ^ 2 - Real.sqrt 3 * 1.75 * 1.27 - 4 * 1.75 * 0.1 +
            1.27 ^ 2 + 2 * Real.sqrt 3 * 1.27 * 0.1) /
          (2 * (Real.sqrt 3 * 1.75 - 2 * 1.27 - 2 * Real.sqrt 3 * 0.1 + 4 * 0.1)),
         0.6 * 1.75) ∧
    hexalobular_recess demoHexalobularTable "T20" =
      Except.error "T20 is an invalid hexalobular size" :=
  ⟨(hexalobular_recess_spec demoHexalobularTable "T6").1 1.75 1.27 0.1
     (by simp [demoHexalobularTable]),
   (hexalobular_recess_spec demoHexalobularTable "T20").2
     (by simp [demoHexalobularTable])⟩

/-- C9: `polygon_diagonal` returns `width / cos(π / num_sides)` for every
positive width and side count; in particular `polygon_diagonal 10 6` equals
`10 / cos(30°)` (`30° = π/6` radians), which is within `0.001` of
`11.547`. -/
theorem polygon_diagonal_spec :
    (∀ (width : ℝ) (num_sides : ℕ), 0 < width → 0 < num_sides →
      polygon_diagonal width num_sides = width / Real.cos (Real.pi / num_sides)) ∧
    polygon_diagonal 10 6 = 10 / Real.cos (Real.pi / 6) ∧
    |polygon_diagonal 10 6 - 11.547| < 0.001 := by
  have hcast : ((6 : ℕ) : ℝ) = 6 := by norm_num
  have hs2 : Real.sqrt 3 ^ 2 = 3 := Real.sq_sqrt (by norm_num)
  have hs0 : (0 : ℝ) < Real.sqrt 3 := Real.sqrt_pos.mpr (by norm_num)
  have hlo : (1.732 : ℝ) < Real.sqrt 3 := by nlinarith
  have hhi : Real.sqrt 3 < 1.7321 := by nlinarith
  have hval : polygon_diagonal 10 6 = 20 / Real.sqrt 3 := by
    rw [polygon_diagonal, hcast, Real.cos_pi_div_six]
    rw [div_div_eq_mul_div]
    norm_num
  refine ⟨fun w n _ _ => rfl, ?_, ?_⟩
  · rw [polygon_diagonal, hcast]
  · have h1 : 20 / Real.sqrt 3 < 11.548 := by
      rw [div_lt_iff₀ hs0]; nlinarith
    have h2 : (11.546 : ℝ) < 20 / Real.sqrt 3 := by
      rw [lt_div_iff₀ hs0]; nlinarith
    rw [hval, abs_lt]
    constructor <;> [linarith; linarith]

/-- Witness for C9: the general formula applied at width 10 and six
sides. -/
theorem polygon_diagonal_spec_witness :
    (0 : ℝ) < 10 ∧ 0 < 6 ∧
      polygon_diagonal 10 6 = 10 / Real.cos (Real.pi / ((6 : ℕ) : ℝ)) :=
  ⟨by norm_num, by norm_num,
   polygon_diagonal_spec.1 10 6 (by norm_num) (by norm_num)⟩

/-- C5: in the hole-cutting operation, a set `hand` makes the bore radius
the fastener's thread major diameter over two with no table lookup (the
result does not depend on the diameter table), while with `hand` unset a
fit-or-material key absent from the diameter table raises a configuration
error whose message enumerates the valid keys. -/
theorem fastenerHoleSetup_radius (table : List (String × ℚ))
    (fastener : HoleFastener) (depth : ℚ) (fit material : Option String)
    (counterSunk : Bool) :
    (∀ h : String, ∃ off cs,
      fastenerHoleSetup table fastener depth fit material counterSunk (some h) =
        Except.ok (off, ⟨cs, fastener.thread_diameter / 2, depth⟩)) ∧
    (∀ (h : String) (other : List (String × ℚ)),
      fastenerHoleSetup table fastener depth fit material counterSunk (some h) =
        fastenerHoleSetup other fastener depth fit material counterSunk (some h)) ∧
    (∀ key, (match material with | none => fit | some m => some m) = key →
      lookupDiameter table key = none →
      fastenerHoleSetup table fastener depth fit material counterSunk none =
        Except.error (keyErrorMsg key (table.map Prod.fst))) := by
  refine ⟨?_, ?_, ?_⟩
  · intro h
    rcases hp : fastener.countersink_profile with _ | z
    · exact ⟨0, none, by cases counterSunk <;> simp [fastenerHoleSetup, hp]⟩
    · cases counterSunk
      · exact ⟨0, none, by simp [fastenerHoleSetup, hp]⟩
      · exact ⟨z, some z, by simp [fastenerHoleSetup, hp]⟩
  · intro h other
    cases counterSunk <;> rcases hp : fastener.countersink_profile with _ | z <;>
      simp [fastenerHoleSetup, hp]
  · intro key hkey hlook
    subst hkey
    cases material <;> simp [fastenerHoleSetup, hlook]

/-- Demonstration clearance-diameter table. -/
def demoDiameters : List (String × ℚ) :=
  [("Close", 6.4), ("Normal", 6.6), ("Loose", 7)]

/-- Demonstration fastener parameters for an M6-1 screw whose countersink
profile extends 3 units. -/
def demoHoleFastener : HoleFastener :=
  { thread_diameter := 6, thread_pitch := 1, countersink_profile := some 3 }

/-- Witness for C5: a threaded hole resolves to radius 3 without touching
the table, and the unknown key "Medium" raises the enumerating error. -/
theorem fastenerHoleSetup_radius_witness :
    (∃ off cs,
      fastenerHoleSetup demoDiameters demoHoleFastener 20 (some "Normal") none
          true (some "right") =
        Except.ok (off, ⟨cs, demoHoleFastener.thread_diameter / 2, 20⟩)) ∧
    fastenerHoleSetup demoDiameters demoHoleFastener 20 (some "Medium") none
        true none =
      Except.error (keyErrorMsg (some "Medium") (demoDiameters.map Prod.fst)) :=
  ⟨(fastenerHoleSetup_radius demoDiameters demoHoleFastener 20 (some "Normal")
      none true).1 "right",
   (fastenerHoleSetup_radius demoDiameters demoHoleFastener 20 (some "Medium")
      none true).2.2 (some "Medium") rfl rfl⟩

/-- C6: a hole-cutting call with `counterSunk = True` on a fastener whose
countersink profile is `None` (a set screw) does not raise: it proceeds
with `head_offset = 0` and cuts a plain hole with no countersink cutter,
whether the hole is threaded or resolved through the diameter table. -/
theorem fastenerHoleSetup_null_countersink (table : List (String × ℚ))
    (fastener : HoleFastener) (depth : ℚ) (fit material : Option String)
    (hcs : fastener.countersink_profile = none) :
    (∀ h : String,
      fastenerHoleSetup table fastener depth fit material true (some h) =
        Except.ok (0, ⟨none, fastener.thread_diameter / 2, depth⟩)) ∧
    (∀ key d, (match material with | none => fit | some m => some m) = key →
      lookupDiameter table key = some d →
      fastenerHoleSetup table fastener depth fit material true none =
        Except.ok (0, ⟨none, d / 2, depth⟩)) := by
  constructor
  · intro h
    simp [fastenerHoleSetup, hcs]
  · intro key d hkey hlook
    subst hkey
    cases material <;> simp [fastenerHoleSetup, hcs, hlook]

/-- Set-screw-like fastener parameters: `countersink_profile` is `None`. -/
def demoSetScrew : HoleFastener :=
  { thread_diameter := 6, thread_pitch := 1, countersink_profile := none }

/-- Witness for C6: with the demonstration table and a set screw,
`counterSunk = True` degrades to a plain hole in both branches. -/
theorem fastenerHoleSetup_null_countersink_witness :
    fastenerHoleSetup demoDiameters demoSetScrew 20 (some "Normal") none true
        (some "right") =
      Except.ok (0, ⟨none, demoSetScrew.thread_diameter / 2, 20⟩) ∧
    fastenerHoleSetup demoDiameters demoSetScrew 20 (some "Normal") none true
        none =
      Except.ok (0, ⟨none, (6.6 : ℚ) / 2, 20⟩) :=
  ⟨(fastenerHoleSetup_null_countersink demoDiameters demoSetScrew 20
      (some "Normal") none rfl).1 "right",
   (fastenerHoleSetup_null_countersink demoDiameters demoSetScrew 20
      (some "Normal") none rfl).2 (some "Normal") 6.6 rfl rfl⟩

/-- Reduction of `screwInit` once the size, type and hand checks pass. -/
theorem screwInit_valid_red (types : List String)
    (table : String → String → Option DimSet) (lof : DimSet → ℚ)
    (size : String) (length : ℚ) (fastener_type hand : String)
    (hsize : (sizeParts size).length = 2)
    (htype : types.contains fastener_type = true)
    (hhand : hand = "left" ∨ hand = "right") :
    screwInit types table lof size length fastener_type hand =
      match table fastener_type size with
      | none => Except.error CtorError.unknownSize
      | some d =>
        if lof d ≥ length then Except.error CtorError.lengthTooShort
        else Except.ok d := by
  have hhand2 : ¬(hand ≠ "left" ∧ hand ≠ "right") := by
    rcases hhand with h | h <;> simp [h]
  simp only [screwInit]
  rw [if_neg (by simp [hsize]), if_neg (by rw [htype]; simp), if_neg hhand2]

/-- Reduction of `nutInit` once the size, type and hand checks pass. -/
theorem nutInit_valid_red (types : List String)
    (table : String → String → Option DimSet)
    (size : String) (fastener_type hand : String)
    (hsize : (sizeParts size).length = 2)
    (htype : types.contains fastener_type = true)
    (hhand : hand = "left" ∨ hand = "right") :
    nutInit types table size fastener_type hand =
      match table fastener_type size with
      | none => Except.error CtorError.unknownSize
      | some d => Except.ok d := by
  have hhand2 : ¬(hand ≠ "left" ∧ hand ≠ "right") := by
    rcases hhand with h | h <;> simp [h]
  simp only [nutInit]
  rw [if_neg (by simp [hsize]), if_neg (by rw [htype]; simp), if_neg hhand2]

/-- C7: a countersunk screw (whose `length_offset` is the head height `k`)
constructs successfully exactly when `length_offset() < length`; whenever
the requested length is at most the head height, the constructor raises the
configuration error before any solid is built. -/
theorem counterSunk_length_guard
    (types : List String) (table : String → String → Option DimSet)
    (size : String) (length k : ℚ) (fastener_type hand : String) (data : DimSet)
    (hsize : (sizeParts size).length = 2)
    (htype : types.contains fastener_type = true)
    (hhand : hand = "left" ∨ hand = "right")
    (htable : table fastener_type size = some data)
    (hk : dimLookup data "k" = some k) :
    (screwInit types table counterSunkLengthOffset size length fastener_type hand =
        Except.ok data ↔ k < length) ∧
    (length ≤ k →
      screwInit types table counterSunkLengthOffset size length fastener_type hand =
        Except.error CtorError.lengthTooShort) := by
  have hoff : counterSunkLengthOffset data = k := by
    simp [counterSunkLengthOffset, hk]
  have hred : screwInit types table counterSunkLengthOffset size length
      fastener_type hand =
      if k ≥ length then Except.error CtorError.lengthTooShort
      else Except.ok data := by
    rw [screwInit_valid_red types table counterSunkLengthOffset size length
      fastener_type hand hsize htype hhand, htable]
    simp [hoff]
  rw [hred]
  constructor
  · split_ifs with hge
    · exact iff_of_false (by simp) (not_lt.mpr hge)
    · exact iff_of_true rfl (not_le.mp hge)
  · intro hle
    rw [if_pos hle]

/-- Family types for the countersunk demonstration screw. -/
def demoCsTypes : List String := ["iso10642"]

/-- Dimension set for the demonstration countersunk M6-1 screw:
head height `k` is 3.3. -/
def demoCsData : DimSet := [("k", 3.3), ("dk", 11.82), ("a", 90)]

/-- Demonstration dimension table holding only (iso10642, M6-1). -/
def demoCsTable : String → String → Option DimSet :=
  fun t s => if t = "iso10642" ∧ s = "M6-1" then some demoCsData else none

/-- Witness for C7: a CounterSunk M6-1 screw of length 3.3 (equal to its
head height) fails with the length error, and one of length 40 constructs. -/
theorem counterSunk_length_guard_witness :
    screwInit demoCsTypes demoCsTable counterSunkLengthOffset "M6-1" 3.3
        "iso10642" "right" = Except.error CtorError.lengthTooShort ∧
    screwInit demoCsTypes demoCsTable counterSunkLengthOffset "M6-1" 40
        "iso10642" "right" = Except.ok demoCsData :=
  ⟨(counterSunk_length_guard demoCsTypes demoCsTable "M6-1" 3.3 3.3 "iso10642"
      "right" demoCsData (by decide) (by decide) (Or.inr rfl)
      (by simp [demoCsTable]) rfl).2 le_rfl,
   (counterSunk_length_guard demoCsTypes demoCsTable "M6-1" 40 3.3 "iso10642"
      "right" demoCsData (by decide) (by decide) (Or.inr rfl)
      (by simp [demoCsTable]) rfl).1.mpr (by norm_num)⟩

/-- C8: the `Screw` and `Nut` constructors fail with the invalid-size error
when the size string does not split into exactly two dash-separated parts,
with the invalid-type error when the fastener type is unknown to the
family, and with the invalid-hand error for every hand other than "left"
or "right"; with all three valid, neither constructor raises any of these
three errors. -/
theorem ctor_validation
    (types : List String) (table : String → String → Option DimSet)
    (lengthOffsetOf : DimSet → ℚ) (size : String) (length : ℚ)
    (fastener_type hand : String) :
    ((sizeParts size).length ≠ 2 →
      screwInit types table lengthOffsetOf size length fastener_type hand =
          Except.error CtorError.invalidSize ∧
      nutInit types table size fastener_type hand =
          Except.error CtorError.invalidSize) ∧
    ((sizeParts size).length = 2 → types.contains fastener_type = false →
      screwInit types table lengthOffsetOf size length fastener_type hand =
          Except.error CtorError.invalidType ∧
      nutInit types table size fastener_type hand =
          Except.error CtorError.invalidType) ∧
    ((sizeParts size).length = 2 → types.contains fastener_type = true →
      hand ≠ "left" → hand ≠ "right" →
      screwInit types table lengthOffsetOf size length fastener_type hand =
          Except.error CtorError.invalidHand ∧
      nutInit types table size fastener_type hand =
          Except.error CtorError.invalidHand) ∧
    ((sizeParts size).length = 2 → types.contains fastener_type = true →
      (hand = "left" ∨ hand = "right") →
      ∀ e, (screwInit types table lengthOffsetOf size length fastener_type hand =
              Except.error e ∨
            nutInit types table size fastener_type hand = Except.error e) →
        e ≠ CtorError.invalidSize ∧ e ≠ CtorError.invalidType ∧
          e ≠ CtorError.invalidHand) := by
  refine ⟨?_, ?_, ?_, ?_⟩
  · intro hsize
    constructor
    · simp only [screwInit]
      rw [if_pos hsize]
    · simp only [nutInit]
      rw [if_pos hsize]
  · intro hsize htype
    constructor
    · simp only [screwInit]
      rw [if_neg (by simp [hsize]), if_pos htype]
    · simp only [nutInit]
      rw [if_neg (by simp [hsize]), if_pos htype]
  · intro hsize htype hl hr
    constructor
    · simp only [screwInit]
      rw [if_neg (by simp [hsize]), if_neg (by rw [htype]; simp), if_pos ⟨hl, hr⟩]
    · simp only [nutInit]
      rw [if_neg (by simp [hsize]), if_neg (by rw [htype]; simp), if_pos ⟨hl, hr⟩]
  · intro hsize htype hhand e he
    rw [screwInit_valid_red types table lengthOffsetOf size length fastener_type
      hand hsize htype hhand] at he
    rw [nutInit_valid_red types table size fastener_type hand hsize htype
      hhand] at he
    rcases he with he | he
    · split at he
      · injection he with h
        subst h
        simp
      · split at he
        · injection he with h
          subst h
          simp
        · exact absurd he (by simp)
    · split at he
      · injection he with h
        subst h
        simp
      · exact absurd he (by simp)

/-- Witness for C8 at concrete inputs: a one-part size fails as invalid
size, an unknown type as invalid type, hand "up" as invalid hand, and the
fully valid call does not produce any of those three errors. -/
theorem ctor_validation_witness :
    screwInit demoCsTypes demoCsTable counterSunkLengthOffset "M6" 40
        "iso10642" "right" = Except.error CtorError.invalidSize ∧
    screwInit demoCsTypes demoCsTable counterSunkLengthOffset "M6-1" 40
        "iso4762" "right" = Except.error CtorError.invalidType ∧
    screwInit demoCsTypes demoCsTable counterSunkLengthOffset "M6-1" 40
        "iso10642" "up" = Except.error CtorError.invalidHand ∧
    (∀ e, (screwInit demoCsTypes demoCsTable counterSunkLengthOffset "M6-1" 40
              "iso10642" "right" = Except.error e ∨
           nutInit demoCsTypes demoCsTable "M6-1" "iso10642" "right" =
              Except.error e) →
      e ≠ CtorError.invalidSize ∧ e ≠ CtorError.invalidType ∧
        e ≠ CtorError.invalidHand) :=
  ⟨((ctor_validation demoCsTypes demoCsTable counterSunkLengthOffset "M6" 40
      "iso10642" "right").1 (by decide)).1,
   ((ctor_validation demoCsTypes demoCsTable counterSunkLengthOffset "M6-1" 40
      "iso4762" "right").2.1 (by decide) (by decide)).1,
   ((ctor_validation demoCsTypes demoCsTable counterSunkLengthOffset "M6-1" 40
      "iso10642" "up").2.2.1 (by decide) (by decide) (by decide) (by decide)).1,
   (ctor_validation demoCsTypes demoCsTable counterSunkLengthOffset "M6-1" 40
      "iso10642" "right").2.2.2 (by decide) (by decide) (Or.inr rfl)⟩

/-- Property asserted by C3 for one cross-recess size code with its table
width `m` and depth `dep`: the solver returns the doubly-mirrored cruciform
plan with fillet radius `m/3` applied to the box-selected vertices; the
box-selected vertices are exactly the plan vertices inside the central
third of the plan's `m`-wide bounding box (`|x| ≤ m/6` and `|y| ≤ m/6`);
and no blade-tip vertex (one with `|x| = m/2` or `|y| = m/2`) is
filleted. -/
def crossRecessClaim (size : String) (m dep : ℚ) : Prop :=
  cross_recess size =
    Except.ok ⟨crossPlanVertices m, crossSelectedVertices m, m / 3, dep⟩ ∧
  crossSelectedVertices m =
    (crossPlanVertices m).filter
      (fun p => decide (|p.1| ≤ m / 6 ∧ |p.2| ≤ m / 6)) ∧
  ∀ p ∈ crossPlanVertices m, (|p.1| = m / 2 ∨ |p.2| = m / 2) →
    ¬ p ∈ crossSelectedVertices m

set_option maxHeartbeats 2000000 in
/-- C3: for every valid cross/Phillips size code with table width `m`,
`cross_recess` builds the cruciform plan as the rectangle contour reflected
across both axes and fillets, with radius `m/3`, exactly the vertices in
the central third of the plan's bounding box, leaving the outer blade-tip
vertices unrounded. -/
theorem cross_recess_fillet_selection :
    crossRecessClaim "PH0" 1.9 1.1 ∧ crossRecessClaim "PH1" 3.1 2.0 ∧
    crossRecessClaim "PH2" 5.3 3.27 ∧ crossRecessClaim "PH3" 6.8 3.53 ∧
    crossRecessClaim "PH4" 10.0 5.88 := by
  refine ⟨⟨rfl, ?_, ?_⟩, ⟨rfl, ?_, ?_⟩, ⟨rfl, ?_, ?_⟩, ⟨rfl, ?_, ?_⟩,
    ⟨rfl, ?_, ?_⟩⟩ <;>
    norm_num [crossSelectedVertices, crossPlanVertices, crossQuarterVertices,
      mirrorX, mirrorY, List.filter, abs_le, abs_neg, abs_of_nonneg]

/-- Value content shared by the two C2 demonstration screws: the same
(size, type, hand, simple) constructed twice. -/
def demoValue : FastenerValue :=
  { cls := "SocketHeadCapScrew", size := "M6-1", fastener_type := "iso4762",
    lengthStr := "x40", hand := "right", simple := true }

/-- First construction of the demonstration screw. -/
def demoScrewA : FastenerInstance := { id := 0, val := demoValue }

/-- Second, separate construction with identical values. -/
def demoScrewB : FastenerInstance := { id := 1, val := demoValue }

/-- Counterexample to C2: two separately constructed fasteners with
identical (size, type, hand, simple) land on the same `info` BOM line, but
the extractor's equality rule is Python object identity, not value
equality, so the line reports quantity 1 — not the 2 that value-equality
grouping would give. -/
theorem bom_value_equality_cex :
    (fastener_quantities (some [("n1", demoScrewA), ("n2", demoScrewB)]) true).map
        (fun q => dictGet q (BomKey.info demoValue.info)) = some (some 1) ∧
    ¬ (fastener_quantities (some [("n1", demoScrewA), ("n2", demoScrewB)]) true).map
        (fun q => dictGet q (BomKey.info demoValue.info)) = some (some 2) := by
  exact ⟨rfl, by decide⟩

/-- C2 amended: the BOM extractor's equality rule is object identity, not
value equality.  Two distinct instances with identical values are not
considered equal: under `bom = True` they collapse onto the single `info`
line of their shared value but the reported quantity is 1 (each instance
counts only itself), and under `bom = False` they appear as two separate
entries of quantity 1 each. -/
theorem bom_identity_equality (v : FastenerValue) (i j : ℕ) (n1 n2 : String)
    (hij : i ≠ j) :
    fastener_quantities (some [(n1, ⟨i, v⟩), (n2, ⟨j, v⟩)]) true =
      some [(BomKey.info v.info, 1)] ∧
    fastener_quantities (some [(n1, ⟨i, v⟩), (n2, ⟨j, v⟩)]) false =
      some [(BomKey.inst ⟨i, v⟩, 1), (BomKey.inst ⟨j, v⟩, 1)] := by
  have h1 : (i == j) = false := beq_eq_false_iff_ne.mpr hij
  have h2 : (j == i) = false := beq_eq_false_iff_ne.mpr (Ne.symm hij)
  constructor <;>
    simp [fastener_quantities, pyDedup, pyCount, pyEq, dictInsert, pyKeyEq,
      h1, h2, hij]

/-- Witness for the amended C2 at the two demonstration screws. -/
theorem bom_identity_equality_witness :
    fastener_quantities (some [("n1", demoScrewA), ("n2", demoScrewB)]) true =
      some [(BomKey.info demoValue.info, 1)] ∧
    fastener_quantities (some [("n1", demoScrewA), ("n2", demoScrewB)]) false =
      some [(BomKey.inst demoScrewA, 1), (BomKey.inst demoScrewB, 1)] :=
  bom_identity_equality demoValue 0 1 "n1" "n2" (by decide)

/-! ## Structure of the placement records (toward C4) -/

/-- Placing the washers and fastener of one hole onto an existing metadata
dict appends exactly the layer's entries and advances the counter. -/
theorem placeAtHole_some (ws : List FastenerInstance) (f : FastenerInstance) :
    ∀ (n : ℕ) (d : List (String × FastenerInstance)),
      placeAtHole ws f (n, some d) =
        (n + ws.length + 1, some (d ++ layerEntries ws f n)) := by
  induction ws with
  | nil => intro n d; rfl
  | cons w ws ih =>
    intro n d
    have hstep : placeAtHole (w :: ws) f (n, some d) =
        placeAtHole ws f (n + 1, some (d ++ [(childName n, w)])) := rfl
    rw [hstep, ih]
    simp [layerEntries]
    omega

/-- Placing one hole's washers and fastener when the metadata attribute
does not exist yet creates the dict holding exactly the layer's entries. -/
theorem placeAtHole_none (ws : List FastenerInstance) (f : FastenerInstance)
    (n : ℕ) :
    placeAtHole ws f (n, none) = (n + ws.length + 1, some (layerEntries ws f n)) := by
  cases ws with
  | nil => rfl
  | cons w ws =>
    have hstep : placeAtHole (w :: ws) f (n, none) =
        placeAtHole ws f (n + 1, some [(childName n, w)]) := rfl
    rw [hstep, placeAtHole_some]
    simp [layerEntries]
    omega

/-- Cutting a list of holes starting from an existing metadata dict appends
exactly the generated entries. -/
theorem cutHolesRecords_some (ws : List FastenerInstance) (f : FastenerInstance) :
    ∀ (ls : List ℕ) (n : ℕ) (d : List (String × FastenerInstance)),
      cutHolesRecords ls ws f (n, some d) =
        (n + ls.length * (ws.length + 1), some (d ++ holesEntries ls ws f n)) := by
  intro ls
  induction ls with
  | nil => intro n d; simp [cutHolesRecords, holesEntries]
  | cons l ls ih =>
    intro n d
    have hstep : cutHolesRecords (l :: ls) ws f (n, some d) =
        cutHolesRecords ls ws f (placeAtHole ws f (n, some d)) := rfl
    rw [hstep, placeAtHole_some, ih]
    simp [holesEntries, Nat.succ_mul]
    omega

/-- Full characterization of the bookkeeping state produced by a
hole-cutting call on an assembly without metadata: the counter equals the
number of records and the metadata holds exactly the generated entries. -/
theorem cutHolesRecords_none (ws : List FastenerInstance) (f : FastenerInstance)
    (l : ℕ) (ls : List ℕ) :
    cutHolesRecords (l :: ls) ws f (0, none) =
      ((l :: ls).length * (ws.length + 1), some (holesEntries (l :: ls) ws f 0)) := by
  have hstep : cutHolesRecords (l :: ls) ws f (0, none) =
      cutHolesRecords ls ws f (placeAtHole ws f (0, none)) := rfl
  rw [hstep, placeAtHole_none, cutHolesRecords_some]
  simp [holesEntries, Nat.succ_mul]
  omega

/-- Number of entries recorded for one hole: one per washer plus one for
the fastener. -/
theorem layerEntries_length (ws : List FastenerInstance) (f : FastenerInstance) :
    ∀ n, (layerEntries ws f n).length = ws.length + 1 := by
  induction ws with
  | nil => intro n; rfl
  | cons w ws ih => intro n; simp [layerEntries, ih]

/-- Total number of entries recorded: locations times layers. -/
theorem holesEntries_length (ws : List FastenerInstance) (f : FastenerInstance) :
    ∀ (ls : List ℕ) (n : ℕ),
      (holesEntries ls ws f n).length = ls.length * (ws.length + 1) := by
  intro ls
  induction ls with
  | nil => intro n; simp [holesEntries]
  | cons l ls ih =>
    intro n
    simp [holesEntries, layerEntries_length, ih, Nat.succ_mul]
    omega

/-- Occurrences of a given instance among one hole's entries, counted under
Python identity. -/
theorem layerEntries_countP (ws : List FastenerInstance) (f g : FastenerInstance) :
    ∀ n, (layerEntries ws f n).countP (fun e => pyEq e.2 g) =
      ws.countP (fun w => pyEq w g) + (if pyEq f g then 1 else 0) := by
  induction ws with
  | nil =>
    intro n
    simp [layerEntries, List.countP_cons, List.countP_nil]
  | cons w ws ih =>
    intro n
    simp only [layerEntries, List.countP_cons, ih]
    omega

/-- Occurrences of a given instance among all recorded entries. -/
theorem holesEntries_countP (ws : List FastenerInstance) (f g : FastenerInstance) :
    ∀ (ls : List ℕ) (n : ℕ),
      (holesEntries ls ws f n).countP (fun e => pyEq e.2 g) =
        ls.length * (ws.countP (fun w => pyEq w g) + (if pyEq f g then 1 else 0)) := by
  intro ls
  induction ls with
  | nil => intro n; simp [holesEntries]
  | cons l ls ih =>
    intro n
    simp [holesEntries, List.countP_append, layerEntries_countP, ih, Nat.succ_mul]
    omega

/-! ## Python set and dict reasoning (toward C4) -/

/-- Identity comparison is reflexive. -/
theorem pyEq_refl (a : FastenerInstance) : pyEq a a = true := by
  simp [pyEq]

/-- Identity comparison is symmetric. -/
theorem pyEq_comm (a b : FastenerInstance) : pyEq a b = pyEq b a := by
  by_cases h : a.id = b.id
  · simp [pyEq, h]
  · simp [pyEq, h, Ne.symm h]

/-- Step function of `pyDedup`. -/
def dedupStep (acc : List FastenerInstance) (f : FastenerInstance) :
    List FastenerInstance :=
  if acc.any (fun g => pyEq g f) then acc else acc ++ [f]

/-- Unfolding of `pyDedup` as a fold of `dedupStep`. -/
theorem pyDedup_eq_foldl (l : List FastenerInstance) :
    pyDedup l = l.foldl dedupStep [] := rfl

/-- A dedup fold only appends to its accumulator. -/
theorem foldl_dedupStep_prefix (l : List FastenerInstance) :
    ∀ acc, ∃ t, l.foldl dedupStep acc = acc ++ t := by
  induction l with
  | nil => intro acc; exact ⟨[], by simp⟩
  | cons g l ih =>
    intro acc
    by_cases h : acc.any (fun x => pyEq x g) = true
    · rcases ih acc with ⟨t, ht⟩
      exact ⟨t, by simpa [dedupStep, h] using ht⟩
    · rcases ih (acc ++ [g]) with ⟨t, ht⟩
      refine ⟨[g] ++ t, ?_⟩
      have hstep : (g :: l).foldl dedupStep acc = l.foldl dedupStep (acc ++ [g]) := by
        simp [dedupStep, h]
      rw [hstep, ht, List.append_assoc]

/-- After the fold, every processed element has an identity representative
in the accumulator. -/
theorem foldl_dedupStep_covers (l : List FastenerInstance) :
    ∀ acc x, (x ∈ l ∨ acc.any (fun y => pyEq y x) = true) →
      (l.foldl dedupStep acc).any (fun y => pyEq y x) = true := by
  induction l with
  | nil =>
    intro acc x h
    rcases h with h | h
    · cases h
    · simpa using h
  | cons g l ih =>
    intro acc x h
    have hacc : (dedupStep acc g).any (fun y => pyEq y x) = true ∨ x ∈ l := by
      rcases h with h | h
      · rcases List.mem_cons.mp h with rfl | h
        · left
          unfold dedupStep
          by_cases hg : acc.any (fun y => pyEq y x) = true
          · rw [if_pos hg]; exact hg
          · rw [if_neg hg]
            simp [List.any_append, pyEq_refl]
        · right; exact h
      · left
        unfold dedupStep
        by_cases hg : acc.any (fun y => pyEq y g) = true
        · rw [if_pos hg]; exact h
        · rw [if_neg hg]
          simp [List.any_append]
          left
          simpa using h
    rcases hacc with hacc | hmem
    · exact ih (dedupStep acc g) x (Or.inr hacc)
    · exact ih (dedupStep acc g) x (Or.inl hmem)

/-- Every element of a dedup fold comes from the accumulator or the
list. -/
theorem foldl_dedupStep_subset (l : List FastenerInstance) :
    ∀ acc y, y ∈ l.foldl dedupStep acc → y ∈ acc ∨ y ∈ l := by
  induction l with
  | nil => intro acc y h; exact Or.inl (by simpa using h)
  | cons g l ih =>
    intro acc y h
    rcases ih (dedupStep acc g) y h with hy | hy
    · unfold dedupStep at hy
      by_cases hg : acc.any (fun x => pyEq x g) = true
      · rw [if_pos hg] at hy
        exact Or.inl hy
      · rw [if_neg hg] at hy
        rcases List.mem_append.mp hy with hy | hy
        · exact Or.inl hy
        · right
          simp at hy
          simp [hy]
    · exact Or.inr (List.mem_cons_of_mem g hy)

/-- Folding elements that already have representatives leaves the
accumulator unchanged. -/
theorem foldl_dedupStep_noop (l : List FastenerInstance) :
    ∀ acc, (∀ x ∈ l, acc.any (fun y => pyEq y x) = true) →
      l.foldl dedupStep acc = acc := by
  induction l with
  | nil => intro acc _; rfl
  | cons g l ih =>
    intro acc h
    have hg : acc.any (fun y => pyEq y g) = true := h g (by simp)
    have hstep : (g :: l).foldl dedupStep acc = l.foldl dedupStep acc := by
      simp [dedupStep, hg]
    rw [hstep]
    exact ih acc (fun x hx => h x (List.mem_cons_of_mem g hx))

/-- Deduplicating a list whose tail repeats elements of its head part. -/
theorem pyDedup_append_subsumed (l₁ l₂ : List FastenerInstance)
    (h : ∀ x ∈ l₂, x ∈ l₁) :
    pyDedup (l₁ ++ l₂) = pyDedup l₁ := by
  rw [pyDedup_eq_foldl, pyDedup_eq_foldl, List.foldl_append]
  apply foldl_dedupStep_noop
  intro x hx
  exact foldl_dedupStep_covers l₁ [] x (Or.inl (h x hx))

/-- Deduplicating with an element of fresh identity appended keeps it as
the last unique element. -/
theorem pyDedup_append_singleton (l : List FastenerInstance)
    (f : FastenerInstance) (h : ∀ x ∈ l, pyEq x f = false) :
    pyDedup (l ++ [f]) = pyDedup l ++ [f] := by
  rw [pyDedup_eq_foldl, pyDedup_eq_foldl, List.foldl_append]
  show dedupStep (l.foldl dedupStep []) f = l.foldl dedupStep [] ++ [f]
  unfold dedupStep
  rw [if_neg ?hne]
  case hne =>
    intro hany
    rcases List.any_eq_true.mp hany with ⟨y, hy, hyf⟩
    rcases foldl_dedupStep_subset l [] y hy with hy0 | hy0
    · cases hy0
    · rw [h y hy0] at hyf
      cases hyf

/-- The key comparison of an `info` key with itself. -/
theorem pyKeyEq_info_refl (s : String) :
    pyKeyEq (BomKey.info s) (BomKey.info s) = true := by
  simp [pyKeyEq]

/-- Overwriting preserves positions: `find?` on the overwritten dict
returns the first matching entry with the new value. -/
theorem find_map_overwrite (k : BomKey) (v : ℕ) :
    ∀ d : List (BomKey × ℕ),
      (d.map (fun p => if pyKeyEq p.1 k then (p.1, v) else p)).find?
          (fun p => pyKeyEq p.1 k) =
        (d.find? (fun p => pyKeyEq p.1 k)).map (fun p => (p.1, v)) := by
  intro d
  induction d with
  | nil => rfl
  | cons p d ih =>
    by_cases hp : pyKeyEq p.1 k = true
    · simp only [List.map_cons, if_pos hp]
      simp [List.find?, hp, ih]
    · simp only [List.map_cons, if_neg hp]
      simp [List.find?, hp, ih]

/-- Searching an appended list when the first part has no match. -/
theorem find_append_of_none {α : Type} (p : α → Bool) :
    ∀ (l₁ l₂ : List α), l₁.find? p = none →
      (l₁ ++ l₂).find? p = l₂.find? p := by
  intro l₁
  induction l₁ with
  | nil => intro l₂ _; rfl
  | cons a l ih =>
    intro l₂ h
    by_cases ha : p a = true
    · rw [List.find?_cons_of_pos _ ha] at h
      exact absurd h (by simp)
    · rw [List.find?_cons_of_neg _ (by simpa using ha)] at h
      rw [List.cons_append, List.find?_cons_of_neg _ (by simpa using ha),
        ih l₂ h]

/-- A Python dict lookup right after `d[k] = v` yields `v`. -/
theorem dictGet_insert_self (d : List (BomKey × ℕ)) (k : BomKey) (v : ℕ)
    (hk : pyKeyEq k k = true) :
    dictGet (dictInsert d k v) k = some v := by
  unfold dictInsert dictGet
  by_cases h : d.any (fun p => pyKeyEq p.1 k) = true
  · rw [if_pos h, find_map_overwrite]
    rcases List.any_eq_true.mp h with ⟨p, hp, hpk⟩
    have hsome : (d.find? (fun p => pyKeyEq p.1 k)).isSome := by
      rw [List.find?_isSome]
      exact ⟨p, hp, hpk⟩
    rcases Option.isSome_iff_exists.mp hsome with ⟨q, hq⟩
    rw [hq]
    rfl
  · rw [if_neg h]
    have hnone : d.find? (fun p => pyKeyEq p.1 k) = none := by
      rw [List.find?_eq_none]
      intro x hx
      intro hxk
      exact h (List.any_eq_true.mpr ⟨x, hx, hxk⟩)
    rw [find_append_of_none _ d _ hnone]
    simp [List.find?, hk]

/-- Instances recorded for one hole, in order: the washers then the
fastener. -/
theorem layerEntries_map_snd (ws : List FastenerInstance) (f : FastenerInstance) :
    ∀ n, (layerEntries ws f n).map Prod.snd = ws ++ [f] := by
  induction ws with
  | nil => intro n; rfl
  | cons w ws ih => intro n; simp [layerEntries, ih]

/-- Every recorded instance is one of the washers or the fastener. -/
theorem holesEntries_snd_mem (ws : List FastenerInstance) (f : FastenerInstance) :
    ∀ (ls : List ℕ) (n : ℕ) (x : FastenerInstance),
      x ∈ (holesEntries ls ws f n).map Prod.snd → x ∈ ws ++ [f] := by
  intro ls
  induction ls with
  | nil => intro n x hx; simp [holesEntries] at hx
  | cons l ls ih =>
    intro n x hx
    rw [holesEntries, List.map_append, layerEntries_map_snd] at hx
    rcases List.mem_append.mp hx with hx | hx
    · exact hx
    · exact ih _ x hx

/-- In a list of pairwise identity-distinct instances, each member is
counted exactly once under identity. -/
theorem countP_self_of_pairwise (ws : List FastenerInstance)
    (hp : ws.Pairwise (fun a b => pyEq a b = false)) :
    ∀ w ∈ ws, ws.countP (fun x => pyEq x w) = 1 := by
  induction ws with
  | nil => intro w hw; cases hw
  | cons a ws ih =>
    rcases List.pairwise_cons.mp hp with ⟨ha, htail⟩
    intro w hw
    rcases List.mem_cons.mp hw with rfl | hw
    · have hzero : ws.countP (fun x => pyEq x w) = 0 := by
        rw [List.countP_eq_zero]
        intro x hx
        rw [pyEq_comm]
        simp [ha x hx]
      rw [List.countP_cons, hzero]
      simp [pyEq_refl]
    · rw [List.countP_cons, ih htail w hw]
      simp [ha w hw]

/-- Python `list.count` as `countP`. -/
theorem pyCount_eq_countP (l : List FastenerInstance) (f : FastenerInstance) :
    pyCount l f = l.countP (fun g => pyEq g f) :=
  (List.countP_eq_length_filter _ _).symm

/-- Unfolded form of the BOM extractor in `bom = True` mode. -/
theorem fastener_quantities_some_true (entries : List (String × FastenerInstance)) :
    fastener_quantities (some entries) true =
      some ((pyDedup (entries.map Prod.snd)).foldl
        (fun d g => dictInsert d (BomKey.info g.val.info)
          (pyCount (entries.map Prod.snd) g)) []) := rfl

/-- C4: cutting holes at the given target locations with a washer stack and
a base assembly creates exactly one placement record per washer layer per
location plus one per location for the fastener itself — `N·(W+1)` records
in total — and BOM extraction afterwards reports quantity `N` for the
fastener's descriptive identity. -/
theorem cutHoles_bookkeeping (locations : List ℕ)
    (washers : List FastenerInstance) (fastener : FastenerInstance)
    (hne : locations ≠ [])
    (hwf : ∀ w ∈ washers, pyEq w fastener = false)
    (hww : washers.Pairwise (fun a b => pyEq a b = false)) :
    cutHolesRecords locations washers fastener (0, none) =
      (locations.length * (washers.length + 1),
        some (holesEntries locations washers fastener 0)) ∧
    (holesEntries locations washers fastener 0).length =
      locations.length * (washers.length + 1) ∧
    ((holesEntries locations washers fastener 0).filter
        (fun e => pyEq e.2 fastener)).length = locations.length ∧
    (∀ w ∈ washers,
      ((holesEntries locations washers fastener 0).filter
          (fun e => pyEq e.2 w)).length = locations.length) ∧
    ∃ q, fastener_quantities (some (holesEntries locations washers fastener 0))
          true = some q ∧
        dictGet q (BomKey.info fastener.val.info) = some locations.length := by
  have hcountf : ∀ n, (holesEntries locations washers fastener n).countP
      (fun e => pyEq e.2 fastener) = locations.length := by
    intro n
    rw [holesEntries_countP]
    have hzero : washers.countP (fun w => pyEq w fastener) = 0 := by
      rw [List.countP_eq_zero]
      intro w hw
      simp [hwf w hw]
    rw [hzero, pyEq_refl]
    simp
  refine ⟨?_, holesEntries_length _ _ _ _, ?_, ?_, ?_⟩
  · rcases locations with _ | ⟨l, ls⟩
    · exact absurd rfl hne
    · exact cutHolesRecords_none washers fastener l ls
  · rw [← List.countP_eq_length_filter]
    exact hcountf 0
  · intro w hw
    rw [← List.countP_eq_length_filter, holesEntries_countP,
      countP_self_of_pairwise washers hww w hw, pyEq_comm]
    simp [hwf w hw]
  · rcases locations with _ | ⟨l, ls⟩
    · exact absurd rfl hne
    · rw [fastener_quantities_some_true]
      have hsplit : (holesEntries (l :: ls) washers fastener 0).map Prod.snd =
          (washers ++ [fastener]) ++
            (holesEntries ls washers fastener (0 + washers.length + 1)).map
              Prod.snd := by
        rw [holesEntries, List.map_append, layerEntries_map_snd]
      have hdedup : pyDedup ((holesEntries (l :: ls) washers fastener 0).map
          Prod.snd) = pyDedup washers ++ [fastener] := by
        rw [hsplit, pyDedup_append_subsumed _ _
          (fun x hx => holesEntries_snd_mem washers fastener ls _ x hx),
          pyDedup_append_singleton washers fastener hwf]
      rw [hdedup, List.foldl_append]
      refine ⟨_, rfl, ?_⟩
      show dictGet (dictInsert _ (BomKey.info fastener.val.info)
        (pyCount ((holesEntries (l :: ls) washers fastener 0).map Prod.snd)
          fastener)) (BomKey.info fastener.val.info) = some (l :: ls).length
      rw [dictGet_insert_self _ _ _ (pyKeyEq_info_refl _)]
      congr 1
      rw [pyCount_eq_countP, List.countP_map]
      exact hcountf 0

/-- Demonstration washer instance for the C4 witness. -/
def demoWasher : FastenerInstance :=
  { id := 100,
    val := { cls := "PlainWasher", size := "M6", fastener_type := "iso7089",
             lengthStr := "", hand := "right", simple := true } }

/-- Witness for C4: two holes with one washer produce four records — two
washer placements plus two fastener placements — and the BOM reports 2 for
the fastener's info line. -/
theorem cutHoles_bookkeeping_witness :
    cutHolesRecords [1, 2] [demoWasher] demoScrewA (0, none) =
      (4, some (holesEntries [1, 2] [demoWasher] demoScrewA 0)) ∧
    (holesEntries [1, 2] [demoWasher] demoScrewA 0).length = 4 ∧
    ((holesEntries [1, 2] [demoWasher] demoScrewA 0).filter
        (fun e => pyEq e.2 demoScrewA)).length = 2 ∧
    (∀ w ∈ [demoWasher],
      ((holesEntries [1, 2] [demoWasher] demoScrewA 0).filter
          (fun e => pyEq e.2 w)).length = 2) ∧
    ∃ q, fastener_quantities
          (some (holesEntries [1, 2] [demoWasher] demoScrewA 0)) true = some q ∧
        dictGet q (BomKey.info demoScrewA.val.info) = some 2 :=
  cutHoles_bookkeeping [1, 2] [demoWasher] demoScrewA (by decide) (by decide)
    (by decide)

end CqFastener
